import Mathlib

/-!
Verification of the metrics-to-CloudWatch EMF push pipeline of
opentelemetry-collector-contrib against its natural-language specification.

Part 1 embeds src/internal/aws/containerinsight/utils.go (SumFields,
getPrefixByMetricType, MetricName, RemovePrefix).

Part 2 models the awsemfexporter core (error classification, destination
resolution, pusher registry, retry, metric-declaration validation, EMF
stdout encoding, exporter start) whose implementation file is not part of
the excerpt; those definitions are modelled from the spec, as marked.
-/

/-- Access m[k] of a Go map represented as an association list. -/
def lookupKey {α β : Type} [DecidableEq α] (k : α) : List (α × β) → Option β
  | [] => none
  | kv :: rest => if kv.1 = k then some kv.2 else lookupKey k rest

theorem lookupKey_eq_none_iff {α β : Type} [DecidableEq α] (l : List (α × β)) (k : α) :
    lookupKey k l = none ↔ k ∉ l.map Prod.fst := by
  induction l with
  | nil => simp [lookupKey]
  | cons kv rest ih =>
    by_cases h : kv.1 = k <;> simp [lookupKey, h, ih, eq_comm]
    exact fun _ hh => h hh.symm

namespace containerinsight

/-- A Go interface value as stored in a map with element type any: either the
nil interface, a float64 payload (modelled exactly by a rational number), or
a payload of any other dynamic type. -/
inductive GoValue where
  | goNil
  | goFloat (v : Rat)
  | goOther
deriving DecidableEq, Repr

/-- A Go map with string keys, represented as an association list with the
key-uniqueness of the map expressed by Nodup hypotheses where needed. -/
abbrev FieldMap := List (String × GoValue)

/-- The base taken from the first element by SumFields: the entries of the
map whose dynamic type is float64, with their values. -/
def floatBase : FieldMap → List (String × Rat)
  | [] => []
  | (k, GoValue.goFloat v) :: rest => (k, v) :: floatBase rest
  | (_, GoValue.goNil) :: rest => floatBase rest
  | (_, GoValue.goOther) :: rest => floatBase rest

/-- One iteration of the summation loop of SumFields: for each key already in
the result, a nil entry or a non-float64 entry of the current map is skipped
and a float64 entry is added to the accumulated value. -/
def addFrom (fi : FieldMap) (result : List (String × Rat)) : List (String × Rat) :=
  result.map fun kv =>
    match lookupKey kv.1 fi with
    | some (GoValue.goFloat v) => (kv.1, kv.2 + v)
    | _ => kv

/-- SumFields from utils.go: nil on an empty slice; otherwise of the first map the
float64 entries seeded as the base, then the float64 values of every later map
added key by key (the len == 1 early return of the source coincides with the
fold over an empty remainder). -/
def SumFields (fields : List FieldMap) : Option (List (String × Rat)) :=
  match fields with
  | [] => none
  | f0 :: rest => some (rest.foldl (fun result fi => addFrom fi result) (floatBase f0))

/-- The float64 contribution of one map at one key: its float64 value there,
or zero when the key is absent, nil, or of another type. -/
def floatVal (fi : FieldMap) (k : String) : Rat :=
  match lookupKey k fi with
  | some (GoValue.goFloat v) => v
  | _ => 0

/-- The keys of a map whose values are float64. -/
def floatKeys (f : FieldMap) : List String :=
  (f.filter fun kv =>
    match kv.2 with
    | GoValue.goFloat _ => true
    | _ => false).map Prod.fst

theorem floatBase_keys (f : FieldMap) : (floatBase f).map Prod.fst = floatKeys f := by
  induction f with
  | nil => rfl
  | cons kv rest ih =>
    obtain ⟨a, b⟩ := kv
    cases b <;> simpa [floatBase, floatKeys] using ih

theorem addFrom_eq_map (fi : FieldMap) (result : List (String × Rat)) :
    addFrom fi result = result.map fun kv => (kv.1, kv.2 + floatVal fi kv.1) := by
  unfold addFrom
  apply List.map_congr_left
  intro kv _
  cases h : lookupKey kv.1 fi with
  | none => simp [floatVal, h]
  | some v => cases v <;> simp [floatVal, h]

theorem foldl_addFrom (rest : List FieldMap) :
    ∀ base : List (String × Rat),
      rest.foldl (fun result fi => addFrom fi result) base =
        base.map fun kv => (kv.1, kv.2 + ((rest.map fun fi => floatVal fi kv.1).sum)) := by
  induction rest with
  | nil => intro base; simp
  | cons fi rest ih =>
    intro base
    rw [List.foldl_cons, ih, addFrom_eq_map, List.map_map]
    apply List.map_congr_left
    intro kv _
    simp [Function.comp, add_assoc]

theorem lookupKey_map_value {β : Type} (l : List (String × β)) (k : String)
    (g : String → β → β) :
    lookupKey k (l.map fun kv => (kv.1, g kv.1 kv.2)) = Option.map (g k) (lookupKey k l) := by
  induction l with
  | nil => rfl
  | cons kv rest ih =>
    by_cases h : kv.1 = k
    · subst h; simp [lookupKey]
    · simp [lookupKey, h, ih]

theorem lookupKey_floatBase_of_not_mem (f : FieldMap) (k : String)
    (h : k ∉ f.map Prod.fst) : lookupKey k (floatBase f) = none := by
  induction f with
  | nil => rfl
  | cons kv rest ih =>
    obtain ⟨a, b⟩ := kv
    simp only [List.map_cons, List.mem_cons] at h
    push_neg at h
    cases b <;> simp [floatBase, lookupKey, Ne.symm h.1, ih h.2]

theorem lookupKey_floatBase (f : FieldMap) (k : String) (v : Rat)
    (hnd : (f.map Prod.fst).Nodup)
    (h : lookupKey k f = some (GoValue.goFloat v)) :
    lookupKey k (floatBase f) = some v := by
  induction f with
  | nil => simp [lookupKey] at h
  | cons kv rest ih =>
    obtain ⟨a, b⟩ := kv
    simp only [List.map_cons, List.nodup_cons] at hnd
    by_cases hk : a = k
    · subst hk
      simp only [lookupKey] at h
      simp at h
      subst h
      simp [floatBase, lookupKey]
    · simp only [lookupKey] at h
      simp [hk] at h
      have htail := ih hnd.2 h
      cases b <;> simp [floatBase, lookupKey, hk, htail]

theorem floatVal_of_lookup (f : FieldMap) (k : String) (v : Rat)
    (h : lookupKey k f = some (GoValue.goFloat v)) : floatVal f k = v := by
  simp [floatVal, h]

/-- C9: SumFields returns nil on an empty input; on a non-empty input the
keys of the result are exactly the keys of the first map carrying float64 values,
and the value at each such key is the sum over that key of the float64 contributions
across all maps (absent, nil, and non-float64 entries of later maps
contributing zero); keys appearing only in later maps never appear. -/
theorem SumFields_spec :
    SumFields [] = none ∧
    ∀ f0 rest r, (f0.map Prod.fst).Nodup → SumFields (f0 :: rest) = some r →
      r.map Prod.fst = floatKeys f0 ∧
      ∀ k v, lookupKey k f0 = some (GoValue.goFloat v) →
        lookupKey k r = some (((f0 :: rest).map fun fi => floatVal fi k).sum) := by
  refine ⟨rfl, ?_⟩
  intro f0 rest r hnd hr
  rw [SumFields] at hr
  injection hr with hr
  subst hr
  rw [foldl_addFrom]
  constructor
  · rw [List.map_map]
    have : (Prod.fst ∘ fun kv : String × Rat =>
        (kv.1, kv.2 + ((rest.map fun fi => floatVal fi kv.1).sum))) = Prod.fst := rfl
    rw [this, floatBase_keys]
  · intro k v hk
    rw [lookupKey_map_value (floatBase f0) k
        (fun a b => b + ((rest.map fun fi => floatVal fi a).sum)),
      lookupKey_floatBase f0 k v hnd hk]
    simp [floatVal_of_lookup f0 k v hk]

/-- Concrete instantiation of SumFields_spec: first map has one float key and
one non-float key; a later float value and a later nil are handled. -/
theorem SumFields_spec_witness :
    lookupKey "a" [("a", (3 : Rat))] = some 3 := by
  have h := (SumFields_spec.2
      [("a", GoValue.goFloat 1), ("b", GoValue.goOther)]
      [[("a", GoValue.goFloat 2), ("c", GoValue.goFloat 5)],
       [("a", GoValue.goNil), ("b", GoValue.goFloat 7)]]
      [("a", (3 : Rat))] (by decide)
      (by simp [SumFields, floatBase, addFrom, lookupKey]; norm_num)).2 "a" 1
      (by simp [lookupKey])
  have hs : (([("a", GoValue.goFloat 1), ("b", GoValue.goOther)] ::
      [[("a", GoValue.goFloat 2), ("c", GoValue.goFloat 5)],
       [("a", GoValue.goNil), ("b", GoValue.goFloat 7)]]).map
        fun fi => floatVal fi "a").sum = (3 : Rat) := by
    simp [floatVal, lookupKey]
    norm_num
  rw [hs] at h
  exact h

/-- Modelled from the spec: the metric-type identifier constants of the
containerinsight package live in its const file, which is not part of the
excerpt; they are distinct opaque strings named after the types listed in the
switch of getPrefixByMetricType. Their concrete values never influence the
properties proved here. -/
def TypeInstance : String := "Instance"

def TypeInstanceFS : String := "InstanceFS"

def TypeInstanceNet : String := "InstanceNet"

def TypeInstanceDiskIO : String := "InstanceDiskIO"

def TypeNode : String := "Node"

def TypeNodeFS : String := "NodeFS"

def TypeNodeNet : String := "NodeNet"

def TypeNodeDiskIO : String := "NodeDiskIO"

def TypeNodeEFA : String := "NodeEFA"

def TypePod : String := "Pod"

def TypePodNet : String := "PodNet"

def TypePodEFA : String := "PodEFA"

def TypePodGPU : String := "PodGPU"

def TypeContainer : String := "Container"

def TypeContainerFS : String := "ContainerFS"

def TypeContainerDiskIO : String := "ContainerDiskIO"

def TypeContainerEFA : String := "ContainerEFA"

def TypeService : String := "Service"

def TypeCluster : String := "Cluster"

def TypeClusterService : String := "ClusterService"

def TypeClusterNamespace : String := "ClusterNamespace"

def TypeClusterDeployment : String := "ClusterDeployment"

def TypeClusterDaemonSet : String := "ClusterDaemonSet"

def TypeClusterStatefulSet : String := "ClusterStatefulSet"

def TypeClusterReplicaSet : String := "ClusterReplicaSet"

def TypeHyperPodNode : String := "HyperPodNode"

def TypePersistentVolume : String := "PersistentVolume"

def TypePersistentVolumeClaim : String := "PersistentVolumeClaim"

/-- getPrefixByMetricType from utils.go: the switch over the metric type,
written as an if chain; the default case logs and leaves the prefix empty. -/
def getPrefixByMetricType (mType : String) : String :=
  if mType = TypeInstance then "instance_"
  else if mType = TypeInstanceFS then "instance_"
  else if mType = TypeInstanceDiskIO then "instance_"
  else if mType = TypeInstanceNet then "instance_interface_"
  else if mType = TypeNode then "node_"
  else if mType = TypeNodeFS then "node_"
  else if mType = TypeNodeDiskIO then "node_"
  else if mType = TypeNodeNet then "node_interface_"
  else if mType = TypeNodeEFA then "node_efa_"
  else if mType = TypePod then "pod_"
  else if mType = TypePodGPU then "pod_"
  else if mType = TypePodNet then "pod_interface_"
  else if mType = TypePodEFA then "pod_efa_"
  else if mType = TypeContainer then "container_"
  else if mType = TypeContainerDiskIO then "container_"
  else if mType = TypeContainerFS then "container_"
  else if mType = TypeContainerEFA then "container_efa_"
  else if mType = TypeService then "service_"
  else if mType = TypeCluster then "cluster_"
  else if mType = TypeClusterService then "service_"
  else if mType = TypeClusterNamespace then "namespace_"
  else if mType = TypeClusterDeployment then "deployment_"
  else if mType = TypeClusterDaemonSet then "daemonset_"
  else if mType = TypeClusterStatefulSet then "statefulset_"
  else if mType = TypeClusterReplicaSet then "replicaset_"
  else if mType = TypeHyperPodNode then "hyperpod_node_health_status_"
  else if mType = TypePersistentVolumeClaim then "persistent_volume_claim_"
  else if mType = TypePersistentVolume then "persistent_volume_"
  else ""

/-- Replacement of the first (leftmost) occurrence of a non-empty pattern,
as performed by the Go strings.Replace call with count 1: scan left to
right, and at the first position where the pattern is a prefix splice in the
replacement and stop. -/
def replOnce (old new : List Char) : List Char → List Char
  | [] => []
  | c :: rest =>
    if old.isPrefixOf (c :: rest) then new ++ (c :: rest).drop old.length
    else c :: replOnce old new rest

/-- Go strings.Replace(s, old, new, 1): unchanged when old and new coincide;
an empty old matches once at the start of s; otherwise the first occurrence
of old, if any, is replaced by new. -/
def stringsReplace1 (s old new : String) : String :=
  if old = new then s
  else if old.data = [] then { data := new.data ++ s.data }
  else { data := replOnce old.data new.data s.data }

/-- MetricName from utils.go: prepend the type prefix to the measurement. -/
def MetricName (mType measurement : String) : String :=
  getPrefixByMetricType mType ++ measurement

/-- RemovePrefix from utils.go: strings.Replace(metricName, prefix, "", 1). -/
def RemovePrefix (mType metricName : String) : String :=
  stringsReplace1 metricName (getPrefixByMetricType mType) ""

theorem isPrefixOf_append_self (l m : List Char) : l.isPrefixOf (l ++ m) = true := by
  induction l with
  | nil => simp [List.isPrefixOf]
  | cons a t ih => simp [List.isPrefixOf, ih]

theorem replOnce_cancel (p m : List Char) (hp : p ≠ []) :
    replOnce p [] (p ++ m) = m := by
  match p, hp with
  | a :: l, _ =>
    have hpre : (a :: l).isPrefixOf ((a :: l) ++ m) = true := isPrefixOf_append_self _ _
    rw [List.cons_append] at hpre ⊢
    simp only [replOnce]
    rw [if_pos hpre]
    simp [List.drop_left]

/-- C10: removing the type prefix is a left inverse of prepending it, for
every metric type (recognized or not) and every measurement name. -/
theorem removePrefix_metricName (mType m : String) :
    RemovePrefix mType (MetricName mType m) = m := by
  unfold MetricName RemovePrefix stringsReplace1
  by_cases h0 : getPrefixByMetricType mType = ""
  · rw [h0, if_pos rfl]
    exact String.ext (by simp)
  · rw [if_neg h0, if_neg (fun hnil => h0 (String.ext hnil))]
    refine String.ext ?_
    show replOnce (getPrefixByMetricType mType).data [] (getPrefixByMetricType mType ++ m).data
        = m.data
    rw [String.data_append,
      replOnce_cancel _ _ (fun hnil => h0 (String.ext hnil))]

end containerinsight

namespace awsemfexporter

/-- Modelled from the spec: the resolution errors of the Destination
Resolver, for a template referencing an unknown placeholder or an attribute
absent from the batch (the resolver implementation is not in the excerpt). -/
inductive ResolutionError where
  | unknownPlaceholder (name : String)
  | missingAttribute (name : String)
deriving DecidableEq, Repr

/-- Modelled from the spec: an error value of the push pipeline. An ingestion
failure either carries an HTTP-style status code (an aws request failure) or
carries none; a resolution failure wraps a ResolutionError; permanentWrap is
the consumererror permanent marker attached by the classifier. -/
inductive EmfError where
  | awsRequestFailure (statusCode : Nat)
  | genericError
  | resolutionFailure (re : ResolutionError)
  | permanentWrap (inner : EmfError)
deriving DecidableEq, Repr

/-- Modelled from the spec: the status code carried by an error, when any. -/
def statusCodeOf : EmfError → Option Nat
  | EmfError.awsRequestFailure c => some c
  | _ => none

/-- Modelled from the spec: the boolean predicate a downstream consumer uses
to test permanence; it inspects only the permanent marker, never the
original status code. -/
def isPermanent : EmfError → Bool
  | EmfError.permanentWrap _ => true
  | _ => false

/-- Modelled from the spec: the error classifier wrapErrorIfBadRequest marks
an error permanent exactly when it carries a status code in the 4xx range;
5xx, network-level and status-less failures pass through as transient. -/
def wrapErrorIfBadRequest (e : EmfError) : EmfError :=
  match statusCodeOf e with
  | some c => if 400 ≤ c ∧ c < 500 then EmfError.permanentWrap e else e
  | none => e

/-- An ingestion failure with or without an HTTP-style status code. -/
def ingestionFailure : Option Nat → EmfError
  | some c => EmfError.awsRequestFailure c
  | none => EmfError.genericError

/-- C1: classification marks an ingestion failure permanent if and only if
it carries a status code in 400..499; with status 500..599 or no status the
wrapped error does not satisfy isPermanent. -/
theorem wrapError_isPermanent_iff :
    ∀ st : Option Nat,
      isPermanent (wrapErrorIfBadRequest (ingestionFailure st)) = true ↔
        ∃ c, st = some c ∧ 400 ≤ c ∧ c ≤ 499 := by
  intro st
  cases st with
  | none => simp [ingestionFailure, wrapErrorIfBadRequest, statusCodeOf, isPermanent]
  | some c =>
    simp only [ingestionFailure, wrapErrorIfBadRequest, statusCodeOf]
    by_cases h : 400 ≤ c ∧ c < 500
    · rw [if_pos h]
      simp only [isPermanent]
      constructor
      · intro
        exact ⟨c, rfl, h.1, by omega⟩
      · intro
        trivial
    · rw [if_neg h]
      simp only [isPermanent]
      constructor
      · intro hfalse
        exact absurd hfalse (by simp)
      · rintro ⟨c0, hc0, h1, h2⟩
        injection hc0 with hc0
        subst hc0
        exact absurd ⟨h1, by omega⟩ h

/-- Concrete instantiation of wrapError_isPermanent_iff at status 400. -/
theorem wrapError_isPermanent_witness :
    isPermanent (wrapErrorIfBadRequest (ingestionFailure (some 400))) = true :=
  (wrapError_isPermanent_iff (some 400)).2 ⟨400, rfl, by decide, by decide⟩

/-- Modelled from the spec: the fixed mapping from supported placeholder
names to the resource attribute keys supplying their values; the mapping
itself lives in the exporter implementation, outside the excerpt, and the
two placeholders exercised by the tests are the cluster name and task id. -/
def placeholderAttrKey : String → Option String
  | "ClusterName" => some "aws.ecs.cluster.name"
  | "TaskId" => some "aws.ecs.task.id"
  | _ => none

/-- Scanner state of the destination resolver: literal text, or inside a
placeholder accumulating its (reversed) name. -/
inductive RMode where
  | lit
  | ph (acc : List Char)

/-- Modelled from the spec: the Destination pure substitution of the Resolver. A
brace-delimited token is looked up in the fixed placeholder mapping and then
in the resource attributes of the batch; an unrecognized placeholder or a missing
attribute fails the resolution, everything else is copied verbatim. -/
def resolveAux (attrs : List (String × String)) :
    RMode → List Char → Except ResolutionError (List Char)
  | RMode.lit, [] => Except.ok []
  | RMode.lit, c :: rest =>
    if c = '{' then resolveAux attrs (RMode.ph []) rest
    else
      match resolveAux attrs RMode.lit rest with
      | Except.ok t => Except.ok (c :: t)
      | Except.error e => Except.error e
  | RMode.ph acc, [] => Except.ok ('{' :: acc.reverse)
  | RMode.ph acc, c :: rest =>
    if c = '}' then
      match placeholderAttrKey { data := acc.reverse } with
      | none => Except.error (ResolutionError.unknownPlaceholder { data := acc.reverse })
      | some key =>
        match lookupKey key attrs with
        | none => Except.error (ResolutionError.missingAttribute { data := acc.reverse })
        | some v =>
          match resolveAux attrs RMode.lit rest with
          | Except.ok t => Except.ok (v.data ++ t)
          | Except.error e => Except.error e
    else resolveAux attrs (RMode.ph (c :: acc)) rest

/-- Resolution of one template against a resource attributes. -/
def resolveTemplate (attrs : List (String × String)) (tmpl : String) :
    Except ResolutionError String :=
  match resolveAux attrs RMode.lit tmpl.data with
  | Except.ok cs => Except.ok { data := cs }
  | Except.error e => Except.error e

/-- The resolved (log group, log stream) destination key, cwlogs.StreamKey. -/
structure StreamKey where
  logGroupName : String
  logStreamName : String
deriving DecidableEq, Repr

/-- Modelled from the spec: a metric declaration, a list of dimension sets
plus the metric name selectors it applies to. -/
structure MetricDeclaration where
  Dimensions : List (List String)
  MetricNameSelectors : List String
deriving DecidableEq, Repr

/-- Modelled from the spec: the configuration options of the exporter that
the core consumes. -/
structure Config where
  region : String
  maxRetries : Nat
  logGroupName : String
  logStreamName : String
  outputDestination : String
  metricDeclarations : List MetricDeclaration
deriving DecidableEq, Repr

/-- Modelled from the spec: the exporter instance state. The ingestion
client reference svcStructuredLog is unset until a successful start; the
pusher registry maps destination keys to pusher instances (identified by
their creation index); pusherOutcomes is the injected script of the test
pusher, consumed one outcome per send attempt (true = succeed, false = fail
with a 400 request failure, as the test mock fails). -/
structure EmfExporter where
  config : Config
  svcStructuredLog : Option Nat
  pusherMap : List (StreamKey × Nat)
  nextPusherId : Nat
  pusherOutcomes : List Bool
deriving DecidableEq, Repr

/-- A freshly constructed exporter (newEmfExporter): no client, no pushers. -/
def emptyExporter (cfg : Config) (script : List Bool) : EmfExporter :=
  { config := cfg, svcStructuredLog := none, pusherMap := [], nextPusherId := 0,
    pusherOutcomes := script }

/-- Modelled from the spec: the Pusher create-once operation of the Registry, getOrCreate; a
key already present returns its pusher and leaves the exporter unchanged, a
new key registers a fresh pusher. -/
def getPusher (e : EmfExporter) (k : StreamKey) : Nat × EmfExporter :=
  match lookupKey k e.pusherMap with
  | some p => (p, e)
  | none =>
    (e.nextPusherId,
      { e with pusherMap := (k, e.nextPusherId) :: e.pusherMap,
               nextPusherId := e.nextPusherId + 1 })

/-- Modelled from the spec: per-batch destination resolution of both
templates; a failed template falls back to the configured literal so the
batch still maps to a registry key, and the first resolution error is
reported. -/
def resolveStreamKey (cfg : Config) (attrs : List (String × String)) :
    StreamKey × Option ResolutionError :=
  match resolveTemplate attrs cfg.logGroupName, resolveTemplate attrs cfg.logStreamName with
  | Except.ok g, Except.ok s => ({ logGroupName := g, logStreamName := s }, none)
  | Except.error e, Except.ok s =>
    ({ logGroupName := cfg.logGroupName, logStreamName := s }, some e)
  | Except.ok g, Except.error e =>
    ({ logGroupName := g, logStreamName := cfg.logStreamName }, some e)
  | Except.error e, Except.error _ =>
    ({ logGroupName := cfg.logGroupName, logStreamName := cfg.logStreamName }, some e)

/-- Head outcome of the injected pusher script; an exhausted script
succeeds. -/
def takeOutcome : List Bool → Bool × List Bool
  | [] => (true, [])
  | o :: rest => (o, rest)

/-- Modelled from the spec: one send through the pusher with the retry
policy. A scripted failure is a 400 request failure (as injected by the test
mock); the classifier marks it permanent, and a permanent failure is
returned immediately regardless of remaining budget, while a transient
failure would be retried while budget remains. -/
def attemptSend (budget : Nat) (script : List Bool) : Option EmfError × List Bool :=
  if (takeOutcome script).1 then (none, (takeOutcome script).2)
  else
    if isPermanent (wrapErrorIfBadRequest (EmfError.awsRequestFailure 400)) then
      (some (wrapErrorIfBadRequest (EmfError.awsRequestFailure 400)), (takeOutcome script).2)
    else
      match budget with
      | 0 => (some (wrapErrorIfBadRequest (EmfError.awsRequestFailure 400)), (takeOutcome script).2)
      | b + 1 => attemptSend b (takeOutcome script).2

/-- The send step of one push: attempt the send with the configured retry
budget and record the remaining script. -/
def afterSend (e1 : EmfExporter) : Option EmfError × EmfExporter :=
  ((attemptSend e1.config.maxRetries e1.pusherOutcomes).1,
   { e1 with pusherOutcomes := (attemptSend e1.config.maxRetries e1.pusherOutcomes).2 })

/-- Modelled from the spec: pushMetricsData for one batch. The destination is
resolved from the resource attributes of the batch (falling back to the literal
template on failure), the pusher for the key is fetched or created, the send
is attempted through it, and a resolution failure is surfaced as a non-nil
error for the batch. -/
def pushMetricsData (e : EmfExporter) (attrs : List (String × String)) :
    Option EmfError × EmfExporter :=
  match (resolveStreamKey e.config attrs).2 with
  | some re =>
    (some (EmfError.resolutionFailure re),
      (afterSend (getPusher e (resolveStreamKey e.config attrs).1).2).2)
  | none => afterSend (getPusher e (resolveStreamKey e.config attrs).1).2

/-- Sequential pushes of several batches; records for each push whether it
returned an error. -/
def pushSeq : EmfExporter → List (List (String × String)) → List Bool × EmfExporter
  | e, [] => ([], e)
  | e, attrs :: rest =>
    ((pushMetricsData e attrs).1.isSome :: (pushSeq (pushMetricsData e attrs).2 rest).1,
     (pushSeq (pushMetricsData e attrs).2 rest).2)

/-- The configuration of the retry scenario: MaxRetries = 1 and literal
destination names, as in the push test. -/
def cfgRetryOne : Config :=
  { region := "us-west-2", maxRetries := 1, logGroupName := "test-logGroupName",
    logStreamName := "test-logStreamName", outputDestination := "cloudwatch",
    metricDeclarations := [] }

/-- C2: with MaxRetries = 1 and a pusher whose injected outcomes are
[fail, succeed, succeed], three sequential pushes return
[error, success, success]; the first failure of the first push is a 400, classified
permanent, so its remaining retry budget is not spent, and each later push
attempts with its own budget. -/
theorem pushSeq_fail_succeed_succeed :
    (pushSeq (emptyExporter cfgRetryOne [false, true, true]) [[], [], []]).1 =
      [true, false, false] := by
  decide

/-- The configuration of the placeholder scenario of the tests. -/
def cfgEcsPlaceholders : Config :=
  { region := "us-west-2", maxRetries := 1,
    logGroupName := "/aws/ecs/containerinsights/\x7bClusterName\x7d/performance",
    logStreamName := "\x7bTaskId\x7d", outputDestination := "cloudwatch",
    metricDeclarations := [] }

/-- The resource attributes of the placeholder scenario. -/
def attrsEcsTask : List (String × String) :=
  [("aws.ecs.cluster.name", "test-cluster-name"), ("aws.ecs.task.id", "test-task-id")]

/-- The destination key the placeholder scenario must resolve to. -/
def keyEcsResolved : StreamKey :=
  { logGroupName := "/aws/ecs/containerinsights/test-cluster-name/performance",
    logStreamName := "test-task-id" }

/-- C3: the templated group and stream names resolve against the
cluster-name and task-id attributes to exactly the substituted key, with no
resolution error, and after the push the registry holds a pusher under
exactly that key and no other. -/
theorem resolvePlaceholders_key_registered :
    resolveStreamKey cfgEcsPlaceholders attrsEcsTask = (keyEcsResolved, none) ∧
    (pushMetricsData (emptyExporter cfgEcsPlaceholders []) attrsEcsTask).2.pusherMap =
      [(keyEcsResolved, 0)] := by
  constructor
  · decide
  · decide

/-- The configuration of the unrecognized-placeholder scenario. -/
def cfgWrongPlaceholder : Config :=
  { region := "us-west-2", maxRetries := 1, logGroupName := "test-logGroupName",
    logStreamName := "\x7bWrongKey\x7d", outputDestination := "cloudwatch",
    metricDeclarations := [] }

/-- C4: a stream template naming the unrecognized placeholder WrongKey fails
resolution for every batch, every push of such a batch returns a non-nil
error, and the pusher is nevertheless registered under the literal
unsubstituted key. -/
theorem wrongPlaceholder_always_fails :
    ∀ (attrs : List (String × String)) (script : List Bool),
      resolveTemplate attrs cfgWrongPlaceholder.logStreamName =
        Except.error (ResolutionError.unknownPlaceholder "WrongKey") ∧
      ((pushMetricsData (emptyExporter cfgWrongPlaceholder script) attrs).1).isSome = true ∧
      lookupKey
          { logGroupName := "test-logGroupName", logStreamName := "\x7bWrongKey\x7d" }
          ((pushMetricsData (emptyExporter cfgWrongPlaceholder script) attrs).2.pusherMap) =
        some 0 := by
  intro attrs script
  exact ⟨rfl, rfl, rfl⟩

/-- Modelled from the spec: dimension-set validation drops every dimension
set with more than 10 dimension names, with a warning. -/
def validateDimensions (dims : List (List String)) : List (List String) :=
  dims.filter fun d => decide (d.length ≤ 10)

/-- Modelled from the spec: metric-declaration validation at exporter
construction drops every declaration without metric name selectors, with a
warning, and filters each kept dimension sets of each kept declaration. -/
def validateMetricDeclarations (mds : List MetricDeclaration) : List MetricDeclaration :=
  (mds.filter fun md => !md.MetricNameSelectors.isEmpty).map
    fun md => { md with Dimensions := validateDimensions md.Dimensions }

/-- The declarations list of the construction test: two plain valid entries,
one without selectors, and one whose second dimension set has 11 names. -/
def mdsFromTest : List MetricDeclaration :=
  [{ Dimensions := [], MetricNameSelectors := ["a", "b"] },
   { Dimensions := [], MetricNameSelectors := ["c", "d"] },
   { Dimensions := [], MetricNameSelectors := [] },
   { Dimensions := [["foo"],
      ["a", "b", "c", "d", "e", "f", "g", "h", "i", "j", "k"]],
     MetricNameSelectors := ["a"] }]

/-- C5: validation removes exactly the invalid entries: every surviving
declaration has selectors and only dimension sets of at most 10 names, every
valid declaration survives unchanged, and on the list of the test the
selector-less entry and the 11-name dimension set are dropped while the
remaining three declarations are kept intact. -/
theorem metricDeclarations_validation :
    (∀ mds, ∀ md ∈ validateMetricDeclarations mds,
        md.MetricNameSelectors ≠ [] ∧ ∀ d ∈ md.Dimensions, d.length ≤ 10) ∧
    (∀ mds, ∀ md ∈ mds, md.MetricNameSelectors ≠ [] →
        (∀ d ∈ md.Dimensions, d.length ≤ 10) → md ∈ validateMetricDeclarations mds) ∧
    validateMetricDeclarations mdsFromTest =
      [{ Dimensions := [], MetricNameSelectors := ["a", "b"] },
       { Dimensions := [], MetricNameSelectors := ["c", "d"] },
       { Dimensions := [["foo"]], MetricNameSelectors := ["a"] }] := by
  refine ⟨?_, ?_, by decide⟩
  · intro mds md hmd
    simp only [validateMetricDeclarations, List.mem_map] at hmd
    obtain ⟨md0, hmem, hval⟩ := hmd
    rw [List.mem_filter] at hmem
    subst hval
    constructor
    · simpa using hmem.2
    · intro d hd
      simp only [validateDimensions, List.mem_filter] at hd
      exact of_decide_eq_true hd.2
  · intro mds md hmd hsel hdims
    simp only [validateMetricDeclarations, List.mem_map]
    refine ⟨md, List.mem_filter.mpr ⟨hmd, by simpa using hsel⟩, ?_⟩
    have hfix : validateDimensions md.Dimensions = md.Dimensions :=
      List.filter_eq_self.mpr fun d hd => decide_eq_true (hdims d hd)
    rw [hfix]

/-- Concrete instantiation of metricDeclarations_validation: the first valid
entry of the test list is kept. -/
theorem metricDeclarations_validation_witness :
    ({ Dimensions := [], MetricNameSelectors := ["a", "b"] } : MetricDeclaration) ∈
      validateMetricDeclarations mdsFromTest :=
  metricDeclarations_validation.2.1 mdsFromTest
    { Dimensions := [], MetricNameSelectors := ["a", "b"] }
    (by decide) (by decide) (by decide)

/-- The metric kinds a batch may carry. -/
inductive MetricKind where
  | gauge
  | sum
  | histogram
  | summary
  | exponentialHistogram
deriving DecidableEq, Repr

/-- A data-point numeric value: finite (magnitude abstracted to an integer;
only the special values matter here), NaN, or an infinity. -/
inductive DataPointValue where
  | finite (v : Int)
  | notANumber
  | posInfinity
  | negInfinity
deriving DecidableEq, Repr

/-- One data point of a metric batch. -/
structure DataPoint where
  kind : MetricKind
  name : String
  value : DataPointValue
deriving DecidableEq, Repr

/-- A JSON scalar of the EMF payload model. -/
inductive JsonValue where
  | jnum (n : Int)
  | jstr (s : String)
deriving DecidableEq, Repr

/-- A flat JSON object, the shape of one EMF log line in this model. -/
structure JsonObject where
  fields : List (String × JsonValue)
deriving DecidableEq, Repr

/-- Escaping of one character inside a JSON string literal. -/
def escapeJsonChar (c : Char) : String :=
  if c = '"' then "\\\"" else if c = '\\' then "\\\\" else String.singleton c

/-- Escaping of a JSON string body. -/
def escapeJsonString (s : String) : String :=
  String.join (s.data.map escapeJsonChar)

/-- Serialization of a JSON scalar; integers and quoted strings are always
syntactically valid JSON value tokens. -/
def renderJsonValue : JsonValue → String
  | JsonValue.jnum n => toString n
  | JsonValue.jstr s => "\"" ++ escapeJsonString s ++ "\""

/-- Serialization of one key/value pair of a JSON object. -/
def renderJsonField (kv : String × JsonValue) : String :=
  "\"" ++ escapeJsonString kv.1 ++ "\":" ++ renderJsonValue kv.2

/-- Serialization of a flat JSON object; by construction the result is a
syntactically valid JSON document. -/
def JsonObject.render (o : JsonObject) : String :=
  "\x7b" ++ String.intercalate "," (o.fields.map renderJsonField) ++ "\x7d"

/-- Modelled from the spec: the defined encoding of a data-point value into
EMF; NaN and the infinities become sentinel strings rather than the bare
tokens NaN and Infinity, which are not valid JSON. -/
def encodeDataPointValue : DataPointValue → JsonValue
  | DataPointValue.finite v => JsonValue.jnum v
  | DataPointValue.notANumber => JsonValue.jstr "NaN"
  | DataPointValue.posInfinity => JsonValue.jstr "Infinity"
  | DataPointValue.negInfinity => JsonValue.jstr "-Infinity"

/-- Modelled from the spec: the EMF log event produced for one data point:
the aws metadata block plus the key/value field of the metric. -/
def emfEvent (dp : DataPoint) : JsonObject :=
  { fields := [("_aws", JsonValue.jstr "CloudWatchMetrics"),
               (dp.name, encodeDataPointValue dp.value)] }

/-- Modelled from the spec: pushing a batch with OutputDestination stdout
bypasses the ingestion client: every data point of every metric kind is
encoded and written as one EMF JSON line, and the push succeeds. -/
def pushMetricsStdout (batch : List DataPoint) : Option EmfError × List String :=
  (none, batch.map fun dp => JsonObject.render (emfEvent dp))

/-- C6: a stdout push of any batch, including batches carrying NaN and
infinite values of any metric kind, returns success, drops no data point
(one output line per point), and every produced line is the rendering of a
JSON object, hence syntactically valid JSON. -/
theorem pushStdout_never_faults :
    ∀ batch : List DataPoint,
      (pushMetricsStdout batch).1 = none ∧
      ((pushMetricsStdout batch).2).length = batch.length ∧
      ∀ line ∈ (pushMetricsStdout batch).2, ∃ o : JsonObject, line = JsonObject.render o := by
  intro batch
  refine ⟨rfl, by simp [pushMetricsStdout], ?_⟩
  intro line hline
  simp only [pushMetricsStdout] at hline
  rw [List.mem_map] at hline
  obtain ⟨dp, _, h⟩ := hline
  exact ⟨emfEvent dp, h.symm⟩

/-- Concrete instantiation of pushStdout_never_faults: the line produced for
a gauge data point carrying NaN is the rendering of a JSON object. -/
theorem pushStdout_never_faults_witness :
    ∃ o : JsonObject,
      JsonObject.render (emfEvent
        { kind := MetricKind.gauge, name := "m", value := DataPointValue.notANumber }) =
        JsonObject.render o :=
  (pushStdout_never_faults
      [{ kind := MetricKind.gauge, name := "m", value := DataPointValue.notANumber }]).2.2
    (JsonObject.render (emfEvent
      { kind := MetricKind.gauge, name := "m", value := DataPointValue.notANumber }))
    (by simp [pushMetricsStdout])

/-- Modelled from the spec: the environment start depends on — whether
credentials and the region resolve to a usable ingestion client. -/
structure StartEnv where
  credentialsValid : Bool
  regionResolvable : Bool
deriving DecidableEq, Repr

/-- Modelled from the spec: construction of the CloudWatch Logs ingestion
client at start; credential or region failure is a startup error. -/
def newCloudWatchClient (env : StartEnv) : Except EmfError Nat :=
  if env.credentialsValid = false then Except.error EmfError.genericError
  else if env.regionResolvable = false then Except.error EmfError.genericError
  else Except.ok 1

/-- Modelled from the spec: the start operation of the exporter. On success the ingestion
client reference svcStructuredLog is set; on failure the state is returned
untouched. -/
def start (e : EmfExporter) (env : StartEnv) : Option EmfError × EmfExporter :=
  match newCloudWatchClient env with
  | Except.error err => (some err, e)
  | Except.ok svc => (none, { e with svcStructuredLog := some svc })

/-- C7: a failed start leaves the internal ingestion-client reference
exactly as it was; in particular, on a fresh exporter (reference unset) the
reference is still unset after the failure, so a second start is possible. -/
theorem start_failure_leaves_client_nil :
    ∀ (e : EmfExporter) (env : StartEnv),
      ((start e env).1).isSome = true →
        (start e env).2.svcStructuredLog = e.svcStructuredLog ∧
        (e.svcStructuredLog = none → (start e env).2.svcStructuredLog = none) := by
  intro e env h
  unfold start at h ⊢
  cases hc : newCloudWatchClient env with
  | error err =>
    exact ⟨rfl, fun hnil => hnil⟩
  | ok svc =>
    rw [hc] at h
    simp at h

/-- Concrete instantiation of start_failure_leaves_client_nil: invalid
credentials leave unset the client reference of a fresh exporter. -/
theorem start_failure_leaves_client_nil_witness :
    (start (emptyExporter cfgRetryOne [])
        { credentialsValid := false, regionResolvable := true }).2.svcStructuredLog = none :=
  (start_failure_leaves_client_nil (emptyExporter cfgRetryOne [])
      { credentialsValid := false, regionResolvable := true } (by decide)).2 (by decide)

/-- The states an exporter instance can reach: freshly constructed, after a
start, or after a push of some batch. -/
inductive Reachable : EmfExporter → Prop where
  | created (cfg : Config) (script : List Bool) : Reachable (emptyExporter cfg script)
  | afterStart (e : EmfExporter) (env : StartEnv) :
      Reachable e → Reachable (start e env).2
  | afterPush (e : EmfExporter) (attrs : List (String × String)) :
      Reachable e → Reachable (pushMetricsData e attrs).2

theorem push_pusherMap (e : EmfExporter) (attrs : List (String × String)) :
    (pushMetricsData e attrs).2.pusherMap =
      ((getPusher e (resolveStreamKey e.config attrs).1).2).pusherMap := by
  unfold pushMetricsData
  cases (resolveStreamKey e.config attrs).2 <;> rfl

theorem getPusher_nodup (e : EmfExporter) (k : StreamKey)
    (h : (e.pusherMap.map Prod.fst).Nodup) :
    ((((getPusher e k).2).pusherMap.map Prod.fst)).Nodup := by
  unfold getPusher
  cases hl : lookupKey k e.pusherMap with
  | some p => exact h
  | none =>
    simp only [List.map_cons]
    exact List.nodup_cons.mpr ⟨(lookupKey_eq_none_iff _ _).mp hl, h⟩

theorem start_pusherMap (e : EmfExporter) (env : StartEnv) :
    (start e env).2.pusherMap = e.pusherMap := by
  unfold start
  cases newCloudWatchClient env <;> rfl

/-- C8: at every reachable state the registry holds at most one pusher per
destination key (its key list has no duplicates), and once a key is
registered with a pusher, getOrCreate returns exactly that pusher without
changing the state, and any further push leaves that registration in place —
so two batches resolving to structurally equal keys always use the same
pusher. -/
theorem pusherRegistry_one_per_key :
    ∀ e, Reachable e →
      (e.pusherMap.map Prod.fst).Nodup ∧
      ∀ k p, lookupKey k e.pusherMap = some p →
        getPusher e k = (p, e) ∧
        ∀ attrs, lookupKey k ((pushMetricsData e attrs).2.pusherMap) = some p := by
  intro e hre
  constructor
  · induction hre with
    | created cfg script => simp [emptyExporter]
    | afterStart e1 env h1 ih => rw [start_pusherMap]; exact ih
    | afterPush e1 attrs h1 ih =>
      rw [push_pusherMap]
      exact getPusher_nodup _ _ ih
  · intro k p hk
    constructor
    · unfold getPusher
      rw [hk]
    · intro attrs
      rw [push_pusherMap]
      unfold getPusher
      cases hl : lookupKey (resolveStreamKey e.config attrs).1 e.pusherMap with
      | some q => exact hk
      | none =>
        have hne : (resolveStreamKey e.config attrs).1 ≠ k := by
          intro heq
          rw [heq, hk] at hl
          exact Option.noConfusion hl
        simp only [lookupKey]
        rw [if_neg hne]
        exact hk

/-- Concrete instantiation of pusherRegistry_one_per_key: in the reachable
state after one push, getOrCreate on the registered key returns the existing
pusher and leaves the exporter unchanged. -/
theorem pusherRegistry_one_per_key_witness :
    getPusher (pushMetricsData (emptyExporter cfgRetryOne []) []).2
        { logGroupName := "test-logGroupName", logStreamName := "test-logStreamName" } =
      (0, (pushMetricsData (emptyExporter cfgRetryOne []) []).2) :=
  ((pusherRegistry_one_per_key (pushMetricsData (emptyExporter cfgRetryOne []) []).2
      (Reachable.afterPush (emptyExporter cfgRetryOne []) []
        (Reachable.created cfgRetryOne []))).2
    { logGroupName := "test-logGroupName", logStreamName := "test-logStreamName" }
    0 (by decide)).1

/-- Concrete instantiation of wrongPlaceholder_always_fails at an empty
batch and empty script. -/
theorem wrongPlaceholder_always_fails_witness :
    ((pushMetricsData (emptyExporter cfgWrongPlaceholder []) []).1).isSome = true :=
  (wrongPlaceholder_always_fails [] []).2.1

end awsemfexporter

namespace containerinsight

/-- Concrete instantiation of removePrefix_metricName on the node type. -/
theorem removePrefix_metricName_witness :
    RemovePrefix TypeNode (MetricName TypeNode "cpu_utilization") = "cpu_utilization" :=
  removePrefix_metricName TypeNode "cpu_utilization"

end containerinsight
